import Mathlib

/-!
# Battle Room Coordinator: formal model

A shallow embedding of the multiplayer battle subsystem of the medistics
application, translated from `src/pages/Battle.tsx` (lobby: room creation and
join-by-code) and the `BattleRoom` waiting-room component (realtime membership,
host failover, countdown reconciliation, manual start, ping, kick detection).

Conventions of the embedding:
* timestamps are epoch milliseconds as `Int` (the code calls
  `new Date(x).getTime()` on every timestamp before comparing);
* `battle_type` and `status` are the literal strings of the TypeScript code
  (`1v1` / `2v2` / `ffa`, `waiting` / `in_progress` / `completed`);
* a nullable column is an `Option`;
* each Supabase mutation becomes a pure function from the observed state to
  the new state (or an `Except` when the code throws), and the row-level
  `update` calls are modelled by the record updates they perform.
-/

namespace Medistics

/-- A row of the `battle_participants` table, as selected by the code
(`id, user_id, username, created_at`). -/
structure Participant where
  id         : String
  user_id    : String
  username   : String
  created_at : Int
deriving DecidableEq, Repr

/-- A row of the `battle_rooms` table together with its embedded
`battle_participants` rows, mirroring the `RoomData` interface of
`BattleRoom`. -/
structure Room where
  id                        : String
  room_code                 : String
  battle_type               : String
  max_players               : Nat
  status                    : String
  time_per_question         : Nat
  total_questions           : Nat
  subject                   : String
  host_id                   : String
  host_ping_requested_at    : Option Int
  last_ping_sender_id       : Option String
  last_ping_sender_username : Option String
  countdown_initiated_at    : Option Int
  battle_participants       : List Participant
deriving DecidableEq, Repr

/-- `room.battle_participants?.length || 0` — the participant count used by
every capacity check in the code. -/
def currentPlayers (room : Room) : Nat :=
  room.battle_participants.length

/-- Capacity as derived from the battle type inside `createRoomMutation`:
`1v1 ? 2 : 2v2 ? 4 : ffa ? 100 : 4`. -/
def maxPlayersFor (battleType : String) : Nat :=
  if battleType = "1v1" then 2
  else if battleType = "2v2" then 4
  else if battleType = "ffa" then 100
  else 4

/-- The room-creation settings chosen in the lobby form. -/
structure BattleSettings where
  battleType      : String
  timePerQuestion : Nat
  totalQuestions  : Nat
  subject         : String
deriving DecidableEq, Repr

inductive CreateError
  | participantInsertFailed
deriving DecidableEq, Repr

/-- Result of `createRoomMutation`: the room table after the mutation and the
mutation result (the created room row, or the propagated store error). -/
structure CreateRoomOutcome where
  rooms  : List Room
  result : Except CreateError Room
deriving Repr

/-- `createRoomMutation.mutationFn` (Battle lobby): inserts the new room row
with status `waiting` and no countdown timestamp, then inserts the creator
as first participant; if that second insert fails, the just-created room row
is deleted (`supabase.from(battle_rooms).delete().eq(id, newRoom.id)`) and
the error is rethrown. `participantInsertFails` injects the store failure on
the participant insert. -/
def createRoom (rooms : List Room) (settings : BattleSettings)
    (userId username roomId roomCode pid : String) (now : Int)
    (participantInsertFails : Bool) : CreateRoomOutcome :=
  let newRoom : Room :=
    { id := roomId
      room_code := roomCode
      battle_type := settings.battleType
      max_players := maxPlayersFor settings.battleType
      status := "waiting"
      time_per_question := settings.timePerQuestion
      total_questions := settings.totalQuestions
      subject := settings.subject
      host_id := userId
      host_ping_requested_at := none
      last_ping_sender_id := none
      last_ping_sender_username := none
      countdown_initiated_at := none
      battle_participants := [] }
  let inserted := rooms ++ [newRoom]
  if participantInsertFails then
    { rooms := inserted.filter (fun r => r.id != roomId)
      result := .error .participantInsertFailed }
  else
    let withCreator : Room :=
      { newRoom with battle_participants := [⟨pid, userId, username, now⟩] }
    { rooms := inserted.map (fun r => if r.id = roomId then withCreator else r)
      result := .ok newRoom }

/-- The two user-visible failures of `joinRoomByCodeMutation`:
`Room not found or already started.` (the PGRST116 path of the
`.eq(status, waiting).single()` lookup) and `Room is full.`. -/
inductive JoinError
  | roomNotFound
  | roomFull
deriving DecidableEq, Repr

/-- `roomCode.toUpperCase()`: uppercasing modelled character by character
(room codes are 6 alphanumeric ASCII characters). -/
def toUpperStr (s : String) : String := ⟨s.data.map Char.toUpper⟩

/-- The room lookup of `joinRoomByCodeMutation`: find the room whose
`room_code` equals the uppercased input and whose status is still
`waiting`. -/
def findWaitingRoomByCode (rooms : List Room) (code : String) : Option Room :=
  rooms.find? (fun r => r.room_code == toUpperStr code && r.status == "waiting")

/-- `joinRoomByCodeMutation.mutationFn`: look the room up (not-found error if
absent), reject when `battle_participants.length >= max_players`, return the
room unchanged when the caller is already a participant, otherwise insert the
caller as a participant. Both success paths return the *fetched* room row.
Note the order: the capacity check runs before the membership check. -/
def joinRoomByCode (rooms : List Room) (code userId username pid : String)
    (now : Int) : Except JoinError (List Room × Room) :=
  match findWaitingRoomByCode rooms code with
  | none => .error .roomNotFound
  | some room =>
      if room.max_players ≤ room.battle_participants.length then
        .error .roomFull
      else if room.battle_participants.any (fun p => p.user_id == userId) then
        .ok (rooms, room)
      else
        let joined : Room :=
          { room with battle_participants :=
              room.battle_participants ++ [⟨pid, userId, username, now⟩] }
        .ok (rooms.map (fun r => if r.id = room.id then joined else r), room)

/-- The same join logic restricted to a single room row: the lookup restricts
to status `waiting` (a non-waiting room is invisible to the join), then the
capacity check, the membership check and the insert, in the order of the
source. -/
def joinRoom (room : Room) (userId username pid : String) (now : Int) :
    Except JoinError Room :=
  if room.status ≠ "waiting" then .error .roomNotFound
  else if room.max_players ≤ room.battle_participants.length then
    .error .roomFull
  else if room.battle_participants.any (fun p => p.user_id == userId) then
    .ok room
  else
    .ok { room with battle_participants :=
            room.battle_participants ++ [⟨pid, userId, username, now⟩] }

/-- The row deletion shared by leaving and kicking:
`delete().eq(battle_room_id, roomId).eq(user_id, uid)` removes every
participant row of that user in the room. -/
def deleteParticipant (room : Room) (userId : String) : Room :=
  { room with battle_participants :=
      room.battle_participants.filter (fun p => p.user_id != userId) }

/-- The ascending ordering used by the host-failover sort:
`(a, b) => new Date(a.created_at).getTime() - new Date(b.created_at).getTime()`. -/
def joinOrder (a b : Participant) : Prop :=
  a.created_at ≤ b.created_at

instance : DecidableRel joinOrder := fun _ _ => Int.decLe _ _

instance : IsTotal Participant joinOrder := ⟨fun _ _ => Int.le_total _ _⟩

instance : IsTrans Participant joinOrder := ⟨fun _ _ _ hab hbc => le_trans hab hbc⟩

/-- The ascending stable sort `remainingParticipants.sort((a, b) => timeA - timeB)`
(JavaScript `Array.prototype.sort` is stable, so on ties it keeps the order in
which the rows were listed; `List.insertionSort` is the same stable sort). -/
def sortByJoinTime (ps : List Participant) : List Participant :=
  ps.insertionSort joinOrder

/-- `room.battle_participants?.filter(p => p.user_id !== userId)` in
`leaveRoomMutation.onSuccess`. -/
def remainingAfterLeave (room : Room) (userId : String) : List Participant :=
  room.battle_participants.filter (fun p => p.user_id != userId)

/-- The host-reassignment decision of `leaveRoomMutation.onSuccess`: when the
leaver was the host and participants remain, the update
`{ host_id: newHost.user_id }` is sent with `newHost` the head of the
ascending-by-created_at sort; otherwise no host write is attempted. Returns
the user id written, or `none` when no write happens. -/
def hostReassignment (room : Room) (userId : String) : Option String :=
  if room.host_id = userId then
    match sortByJoinTime (remainingAfterLeave room userId) with
    | [] => none
    | newHost :: _ => some newHost.user_id
  else none

/-- The compensating-revert condition shared by `leaveRoomMutation.onSuccess`
and `removeParticipantMutation.onSuccess`, evaluated on the cached pre-delete
snapshot: status `in_progress`, count at most capacity, and count minus one
below capacity. -/
def revertDecision (cached : Room) : Prop :=
  cached.status = "in_progress" ∧ currentPlayers cached ≤ cached.max_players ∧
    (currentPlayers cached : Int) - 1 < cached.max_players

instance (cached : Room) : Decidable (revertDecision cached) := by
  unfold revertDecision; infer_instance

/-- The revert write `{ status: waiting, countdown_initiated_at: null }`,
issued against the stored row when `revertDecision` holds of the cached
snapshot. -/
def applyRevert (cached stored : Room) : Room :=
  if revertDecision cached then
    { stored with status := "waiting", countdown_initiated_at := none }
  else stored

/-- The whole leave flow (`leaveRoomMutation`): delete the leaver row; then,
in `onSuccess`, reassign the host when the leaver was host and someone
remains, and issue the compensating revert when the cached snapshot says the
room was in progress. -/
def leaveRoomOp (room : Room) (userId : String) : Room :=
  let afterDelete := deleteParticipant room userId
  let afterHost :=
    match hostReassignment room userId with
    | some newHostId => { afterDelete with host_id := newHostId }
    | none => afterDelete
  applyRevert room afterHost

/-- `removeParticipantMutation` (the kick): refused unless the acting user is
the host, refused as a self-kick; otherwise the target row is deleted and the
same compensating revert as in the leave flow may fire. `none` models the
thrown error (no write happens). -/
def removeParticipantOp (room : Room) (actorId targetId : String) :
    Option Room :=
  if room.host_id ≠ actorId then none
  else if targetId = actorId then none
  else some (applyRevert room (deleteParticipant room targetId))

/-- The store update issued by both `updateStatus` closures of the countdown
code: `update({ status: in_progress, countdown_initiated_at: null }).eq(id, roomId)`.
Its only filter is the room id, so it applies to the stored row whatever that
row currently holds. -/
def updateStatusWrite (stored : Room) : Room :=
  { stored with status := "in_progress", countdown_initiated_at := none }

/-- One client transition attempt (time-expired path and countdown-end path):
the guard `room.status === waiting` / `currentRoomState?.status === waiting`
is evaluated against the status the client has cached; when it passes,
`updateStatusWrite` is applied to the stored row. -/
def attemptAutoStart (cachedStatus : String) (stored : Room) : Room :=
  if cachedStatus = "waiting" then updateStatusWrite stored else stored

/-- The fixed countdown length of the countdown effect:
`room.battle_type === 1v1 ? 5 : 10` seconds. -/
def initialCountdownDuration (battleType : String) : Int :=
  if battleType = "1v1" then 5 else 10

/-- `calculatedTimeRemaining` of the countdown effect:
`Math.max(0, duration - Math.floor((now - countdown_initiated_at) / 1000))`,
with both times in epoch milliseconds. -/
def calculatedTimeRemainingFrom (duration nowMs startMs : Int) : Int :=
  max 0 (duration - (nowMs - startMs).fdiv 1000)

/-- The battle-room row updates a client can issue from the waiting room. -/
inductive StoreWrite
  | setInProgress
  | initiateCountdown (nowMs : Int)
deriving DecidableEq, Repr

/-- What one run of the countdown-management effect produces: the local
countdown displayed to this client, and the store write it issues (if any). -/
structure CountdownEffectResult where
  localCountdown : Option Int
  write          : Option StoreWrite
deriving DecidableEq, Repr

/-- The countdown-management effect of `BattleRoom`, as a function of the
freshly observed room snapshot and the client clock. Entry condition:
status `waiting` and (room at capacity or `countdown_initiated_at` set).
The remaining time is recomputed from `countdown_initiated_at` when that is
set, and is otherwise the full fixed duration; when it has reached zero and
the status is still `waiting`, the `updateStatus` write is issued. -/
def countdownEffect (room : Room) (nowMs : Int) : CountdownEffectResult :=
  if room.status = "in_progress" then ⟨none, none⟩
  else if room.status = "waiting" ∧
      (currentPlayers room = room.max_players ∨
        room.countdown_initiated_at ≠ none) then
    let duration := initialCountdownDuration room.battle_type
    let remaining :=
      match room.countdown_initiated_at with
      | some startMs => calculatedTimeRemainingFrom duration nowMs startMs
      | none => duration
    if remaining ≤ 0 then
      ⟨some remaining, if room.status = "waiting" then some .setInProgress else none⟩
    else
      ⟨some remaining, none⟩
  else ⟨none, none⟩

/-- Applies a `StoreWrite` to the stored room row. `initiateCountdown` is the
update sent by `startBattleMutation`: it sets `countdown_initiated_at` to the
current time and clears the ping fields. -/
def applyWrite (room : Room) : Option StoreWrite → Room
  | none => room
  | some .setInProgress =>
      { room with status := "in_progress", countdown_initiated_at := none }
  | some (.initiateCountdown nowMs) =>
      { room with countdown_initiated_at := some nowMs,
                  host_ping_requested_at := none,
                  last_ping_sender_id := none,
                  last_ping_sender_username := none }

/-- The errors thrown by `startBattleMutation`, in the order of its checks. -/
inductive StartError
  | notHost
  | notFfa
  | notWaiting
deriving DecidableEq, Repr

/-- `startBattleMutation.mutationFn`: only the host, only `ffa`, only from
status `waiting`; on success it writes `countdown_initiated_at := now` and
clears the ping fields. No check of the participant count is made here. -/
def startBattleMutationFn (room : Room) (userId : String) (nowMs : Int) :
    Except StartError Room :=
  if room.host_id ≠ userId then .error .notHost
  else if room.battle_type ≠ "ffa" then .error .notFfa
  else if room.status ≠ "waiting" then .error .notWaiting
  else .ok (applyWrite room (some (.initiateCountdown nowMs)))

/-- One manual-start attempt with the cache made explicit, exactly as
`attemptAutoStart` does for the countdown transition: the guards of
`startBattleMutation.mutationFn` read `room`, the query snapshot the client
has *cached*, while the update it sends is filtered only by room id
(`update(...).eq(id, roomId)`) and therefore lands on the stored row
whatever that row currently holds. When a guard fails the mutation throws
and no write happens. -/
def attemptManualStart (cached stored : Room) (userId : String)
    (nowMs : Int) : Room :=
  if cached.host_id ≠ userId then stored
  else if cached.battle_type ≠ "ffa" then stored
  else if cached.status ≠ "waiting" then stored
  else applyWrite stored (some (.initiateCountdown nowMs))

/-- The render guard of the Start Battle button:
`isHost && battle_type === ffa && status === waiting && currentPlayers > 1 && !isCountdownInitiated`. -/
def showStartBattleButton (room : Room) (userId : String) : Prop :=
  room.host_id = userId ∧ room.battle_type = "ffa" ∧ room.status = "waiting" ∧
    1 < currentPlayers room ∧ room.countdown_initiated_at = none

instance (room : Room) (userId : String) :
    Decidable (showStartBattleButton room userId) := by
  unfold showStartBattleButton; infer_instance

/-- `pingHostMutation.mutationFn`: non-host only, `ffa` only, `waiting` only;
writes the ping timestamp, sender id and sender username. -/
def pingHostMutationFn (room : Room) (userId : String) (nowMs : Int) :
    Except Unit Room :=
  if room.host_id = userId then .error ()
  else if room.battle_type ≠ "ffa" then .error ()
  else if room.status ≠ "waiting" then .error ()
  else
    let senderUsername :=
      ((room.battle_participants.find? (fun p => p.user_id == userId)).map
        (fun p => p.username)).getD "A participant"
    .ok { room with host_ping_requested_at := some nowMs,
                    last_ping_sender_id := some userId,
                    last_ping_sender_username := some senderUsername }

/-- The kicked-detection condition of the participant-diff effect: the clients
own row is absent, the client is not the host, and `isLeaving` is false (no
local leave was initiated). When it holds the client shows the
`Kicked from Room` notice and calls `onLeave()` (exits to the lobby); a
self-initiated leave runs with `isLeaving = true` (set at the start of
`leaveRoomMutation.mutationFn`) and exits through `onSuccess` with only the
`Left Room` notice. -/
def kickedDetected (room : Room) (userId : String) (isLeaving : Bool) : Prop :=
  (¬ room.battle_participants.any (fun p => p.user_id == userId)) ∧
    room.host_id ≠ userId ∧ isLeaving = false

instance (room : Room) (userId : String) (isLeaving : Bool) :
    Decidable (kickedDetected room userId isLeaving) := by
  unfold kickedDetected; infer_instance

/-- The membership operations of the capacity invariant: a join attempt
through the join-by-code logic and a leave. -/
inductive MemberOp
  | join (userId username pid : String) (now : Int)
  | leave (userId : String)
deriving DecidableEq, Repr

/-- Applying a membership operation to a room: a failed join (room not
waiting, or full) leaves the row unchanged. -/
def applyMemberOp (room : Room) : MemberOp → Room
  | .join u un pid now =>
      match joinRoom room u un pid now with
      | .ok r => r
      | .error _ => room
  | .leave u => leaveRoomOp room u

/-- Every battle-room operation of the subsystem, for stating row invariants. -/
inductive BattleOp
  | join (userId username pid : String) (now : Int)
  | leave (userId : String)
  | kick (actorId targetId : String)
  | autoStart
  | manualStart (userId : String) (nowMs : Int)
  | pingHost (userId : String) (nowMs : Int)
deriving DecidableEq, Repr

/-- Applying an operation to the stored row under *fresh-snapshot*
semantics: every guard is evaluated on the stored row itself, i.e. each
client acts on a cache that coincides with the store at the moment of its
operation, and operations that error leave the row unchanged. This is a
deliberate serialization: in the source the guards of `updateStatus` and of
`startBattleMutation` read the cached query snapshot while their updates are
filtered only by room id, and `attemptAutoStart` / `attemptManualStart`
model those two writes with the cache as a separate argument. What a stale
cache can do to the stored row is therefore *not* captured here — see the
stale-cache theorems about those two functions. -/
def applyOp (room : Room) : BattleOp → Room
  | .join u un pid now =>
      match joinRoom room u un pid now with
      | .ok r => r
      | .error _ => room
  | .leave u => leaveRoomOp room u
  | .kick a t => (removeParticipantOp room a t).getD room
  | .autoStart => attemptAutoStart room.status room
  | .manualStart u n =>
      match startBattleMutationFn room u n with
      | .ok r => r
      | .error _ => room
  | .pingHost u n =>
      match pingHostMutationFn room u n with
      | .ok r => r
      | .error _ => room

/-- The countdown-timestamp invariant: `countdown_initiated_at` is non-null
only while the status is `waiting`. -/
def countdownInv (room : Room) : Prop :=
  room.countdown_initiated_at ≠ none → room.status = "waiting"

instance (room : Room) : Decidable (countdownInv room) := by
  unfold countdownInv; infer_instance

/-! ### Concrete rooms used to evaluate the model -/

/-- Participant row of the room creator. -/
def pHost : Participant := ⟨"bp-0", "host-1", "Hosty", 0⟩

/-- Participant row joined at 1000 ms. -/
def pAlice : Participant := ⟨"bp-1", "alice", "Alice", 1000⟩

/-- Participant row joined at 2000 ms. -/
def pBob : Participant := ⟨"bp-2", "bob", "Bob", 2000⟩

/-- Participant row tied with `pTieB` on the join timestamp. -/
def pTieA : Participant := ⟨"bp-3", "ua", "UserA", 5000⟩

/-- Participant row tied with `pTieA` on the join timestamp. -/
def pTieB : Participant := ⟨"bp-4", "ub", "UserB", 5000⟩

/-- A freshly created `1v1` room with no participants yet. -/
def baseRoom : Room :=
  { id := "room-1"
    room_code := "ABC123"
    battle_type := "1v1"
    max_players := 2
    status := "waiting"
    time_per_question := 15
    total_questions := 10
    subject := "Biology"
    host_id := "host-1"
    host_ping_requested_at := none
    last_ping_sender_id := none
    last_ping_sender_username := none
    countdown_initiated_at := none
    battle_participants := [] }

/-- A stored row whose status has already moved on to `completed`. -/
def staleRoom : Room := { baseRoom with status := "completed" }

/-- A full `1v1` room (2 of 2 players), still `waiting`, countdown unset. -/
def fullRoom1v1 : Room :=
  { baseRoom with battle_participants := [pHost, pAlice] }

/-- A free-for-all waiting room whose only participant is the host. -/
def soloFfaRoom : Room :=
  { baseRoom with battle_type := "ffa", max_players := 100,
                  battle_participants := [pHost] }

/-- A free-for-all waiting room with host and one other participant. -/
def kickRoom : Room :=
  { baseRoom with battle_type := "ffa", max_players := 100,
                  battle_participants := [pHost, pAlice] }

/-- The stored row of `kickRoom` once the battle has started: status
`in_progress`, countdown timestamp null (cleared by the transition write). -/
def staleInProgressRoom : Room := { kickRoom with status := "in_progress" }

/-- Free-for-all room whose non-host participants share one join timestamp. -/
def tieRoomA : Room :=
  { baseRoom with battle_type := "ffa", max_players := 100,
                  battle_participants := [pHost, pTieA, pTieB] }

/-- The same room as `tieRoomA` with its participant rows listed in the
other order. -/
def tieRoomB : Room :=
  { tieRoomA with battle_participants := [pHost, pTieB, pTieA] }

/-- Free-for-all room where the host and two later joiners are present and
the join timestamps are pairwise distinct. -/
def hostLeaveRoom : Room :=
  { baseRoom with battle_type := "ffa", max_players := 100,
                  battle_participants := [pHost, pAlice, pBob] }

end Medistics

namespace Medistics

/-! ### Theorems -/

/-- C1 (counterexample). The `waiting -> in_progress` write of `updateStatus`
is *not* conditioned on the stored row still being `waiting`: its only filter
is the room id, and the `waiting` check is made against the status the client
has cached. With a stale cache that still says `waiting` while the stored row
already says `completed`, the attempt mutates the stored row, contradicting
the claim that the underlying mutation only applies while the stored status
is `waiting`. -/
theorem autoStart_mutates_non_waiting_row :
    staleRoom.status = "completed" ∧
    (attemptAutoStart "waiting" staleRoom).status = "in_progress" ∧
    attemptAutoStart "waiting" staleRoom ≠ staleRoom := by
  refine ⟨rfl, rfl, ?_⟩
  decide

/-- C1 (amended). The transition attempt is guarded by the status the client
has cached, not by the stored status: an attempt whose cached status is not
`waiting` issues no write, and once some attempt has fired, any further
attempt leaves the stored row exactly as the first one did (the write sets
`status := in_progress` and `countdown_initiated_at := null`, so it is
idempotent) — duplicate attempts are therefore still safe no-ops in effect. -/
theorem autoStart_cache_guard_and_idempotent
    (c₁ c₂ : String) (stored : Room) :
    (c₁ ≠ "waiting" → attemptAutoStart c₁ stored = stored) ∧
    (c₁ = "waiting" →
      attemptAutoStart c₂ (attemptAutoStart c₁ stored) =
        attemptAutoStart c₁ stored) := by
  constructor
  · intro h
    simp [attemptAutoStart, h]
  · intro h
    by_cases hc : c₂ = "waiting" <;>
      simp [attemptAutoStart, updateStatusWrite, h, hc]

/-- Witness for `autoStart_cache_guard_and_idempotent`. -/
theorem autoStart_cache_guard_and_idempotent_witness :
    attemptAutoStart "completed" baseRoom = baseRoom ∧
    attemptAutoStart "waiting" (attemptAutoStart "waiting" baseRoom) =
      attemptAutoStart "waiting" baseRoom :=
  ⟨(autoStart_cache_guard_and_idempotent "completed" "waiting" baseRoom).1
      (by decide),
   (autoStart_cache_guard_and_idempotent "waiting" "waiting" baseRoom).2 rfl⟩

/-- C8 (counterexample). `startBattleMutation` does not check the participant
count: for a free-for-all waiting room with a single participant (the host),
the claim requires the attempt to be rejected with an error and no write, but
the mutation succeeds and writes the countdown timestamp. -/
theorem manual_start_allowed_with_one_player :
    currentPlayers soloFfaRoom = 1 ∧
    startBattleMutationFn soloFfaRoom "host-1" 7 =
      .ok (applyWrite soloFfaRoom (some (.initiateCountdown 7))) :=
  ⟨rfl, rfl⟩

/-- C8 (amended). The mutation rejects non-host callers, non-`ffa` rooms and
rooms that left `waiting`, with no write in those cases; on success it sets
`countdown_initiated_at` to the current time (clearing the ping fields). The
participant-count-greater-than-one requirement is enforced only by the render
guard of the Start Battle button, not by the mutation. -/
theorem startBattle_guards (room : Room) (uid : String) (nowMs : Int) :
    (room.host_id ≠ uid →
      startBattleMutationFn room uid nowMs = .error .notHost) ∧
    (room.host_id = uid → room.battle_type ≠ "ffa" →
      startBattleMutationFn room uid nowMs = .error .notFfa) ∧
    (room.host_id = uid → room.battle_type = "ffa" → room.status ≠ "waiting" →
      startBattleMutationFn room uid nowMs = .error .notWaiting) ∧
    (room.host_id = uid → room.battle_type = "ffa" → room.status = "waiting" →
      startBattleMutationFn room uid nowMs =
        .ok { room with countdown_initiated_at := some nowMs,
                        host_ping_requested_at := none,
                        last_ping_sender_id := none,
                        last_ping_sender_username := none }) ∧
    (showStartBattleButton room uid → 1 < currentPlayers room) := by
  refine ⟨?_, ?_, ?_, ?_, ?_⟩
  · intro h; simp [startBattleMutationFn, h]
  · intro h1 h2; simp [startBattleMutationFn, h1, h2]
  · intro h1 h2 h3; simp [startBattleMutationFn, h1, h2, h3]
  · intro h1 h2 h3; simp [startBattleMutationFn, applyWrite, h1, h2, h3]
  · intro h; exact h.2.2.2.1

/-- Witness for `startBattle_guards`. -/
theorem startBattle_guards_witness :
    startBattleMutationFn kickRoom "alice" 7 = .error .notHost ∧
    startBattleMutationFn fullRoom1v1 "host-1" 7 = .error .notFfa ∧
    startBattleMutationFn kickRoom "host-1" 7 =
      .ok { kickRoom with countdown_initiated_at := some 7,
                          host_ping_requested_at := none,
                          last_ping_sender_id := none,
                          last_ping_sender_username := none } ∧
    1 < currentPlayers kickRoom :=
  ⟨(startBattle_guards kickRoom "alice" 7).1 (by decide),
   (startBattle_guards fullRoom1v1 "host-1" 7).2.1 rfl (by decide),
   (startBattle_guards kickRoom "host-1" 7).2.2.2.1 rfl rfl rfl,
   (startBattle_guards kickRoom "host-1" 7).2.2.2.2 (by decide)⟩

/-- C10. When the insert of the creator as first participant fails after the
room row was inserted, `createRoomMutation` deletes the just-created room row
and errors: the store is left exactly as before the call, with no
zero-participant room row behind. -/
theorem createRoom_rolls_back
    (rooms : List Room) (settings : BattleSettings)
    (userId username roomId roomCode pid : String) (now : Int)
    (hfresh : ∀ r ∈ rooms, r.id ≠ roomId) :
    (createRoom rooms settings userId username roomId roomCode pid now
        true).rooms = rooms ∧
    (createRoom rooms settings userId username roomId roomCode pid now
        true).result = .error .participantInsertFailed := by
  constructor
  · simp only [createRoom, List.filter_append]
    rw [List.filter_eq_self.mpr, List.filter_cons]
    · simp
    · intro r hr
      simpa using hfresh r hr
  · rfl

/-- Witness for `createRoom_rolls_back`. -/
theorem createRoom_rolls_back_witness :
    (createRoom [] ⟨"1v1", 15, 10, "Biology"⟩ "host-1" "Hosty" "room-1"
        "ABC123" "bp-0" 0 true).rooms = [] ∧
    (createRoom [] ⟨"1v1", 15, 10, "Biology"⟩ "host-1" "Hosty" "room-1"
        "ABC123" "bp-0" 0 true).result = .error .participantInsertFailed :=
  createRoom_rolls_back [] ⟨"1v1", 15, 10, "Biology"⟩ "host-1" "Hosty"
    "room-1" "ABC123" "bp-0" 0 (by simp)

/-- C5 (counterexample). The capacity check of `joinRoomByCodeMutation` runs
before the already-a-participant check, so a caller who is already in the
room is *not* treated idempotently when the room is at capacity: the join
fails with the room-full error instead of succeeding with no insert. -/
theorem join_already_participant_full_room_fails :
    fullRoom1v1.battle_participants.any (fun p => p.user_id == "alice") =
      true ∧
    currentPlayers fullRoom1v1 = fullRoom1v1.max_players ∧
    joinRoomByCode [fullRoom1v1] "abc123" "alice" "Alice" "bp-9" 3000 =
      .error .roomFull :=
  ⟨rfl, rfl, rfl⟩

/-- C5 (amended). `joinRoomByCode` looks a room up by uppercased code
restricted to status `waiting`; it fails with the not-found error when no
such room exists, fails with the room-full error whenever the participant
count has reached capacity (even for a caller who is already a participant),
and succeeds idempotently — no insert, the fetched room returned — when the
caller is already a participant *and* the room is below capacity. -/
theorem joinRoomByCode_spec
    (rooms : List Room) (code u un pid : String) (now : Int) :
    (findWaitingRoomByCode rooms code = none →
      joinRoomByCode rooms code u un pid now = .error .roomNotFound) ∧
    (∀ room, findWaitingRoomByCode rooms code = some room →
      room.max_players ≤ currentPlayers room →
      joinRoomByCode rooms code u un pid now = .error .roomFull) ∧
    (∀ room, findWaitingRoomByCode rooms code = some room →
      currentPlayers room < room.max_players →
      room.battle_participants.any (fun p => p.user_id == u) = true →
      joinRoomByCode rooms code u un pid now = .ok (rooms, room)) := by
  refine ⟨?_, ?_, ?_⟩
  · intro h; simp [joinRoomByCode, h]
  · intro room h hfull
    simp [joinRoomByCode, h, currentPlayers] at hfull ⊢
    intro hlt
    exact absurd hfull (not_le.mpr hlt)
  · intro room h hlt hmem
    simp [joinRoomByCode, h, currentPlayers, not_le.mpr hlt, hmem]
    exact hlt

/-- Helper: a successful `joinRoom` leaves status, countdown timestamp and
capacity unchanged, and either left the participant rows unchanged (caller
already present) or appended exactly one row while the room was below
capacity. -/
theorem joinRoom_ok (room r2 : Room) (u un pid : String) (now : Int)
    (hok : joinRoom room u un pid now = .ok r2) :
    r2.status = room.status ∧
    r2.countdown_initiated_at = room.countdown_initiated_at ∧
    r2.max_players = room.max_players ∧
    (r2.battle_participants = room.battle_participants ∨
      (r2.battle_participants =
          room.battle_participants ++ [⟨pid, u, un, now⟩] ∧
        room.battle_participants.length < room.max_players)) := by
  unfold joinRoom at hok
  split_ifs at hok with h1 h2 h3
  · obtain rfl : room = r2 := Except.ok.inj hok
    exact ⟨rfl, rfl, rfl, Or.inl rfl⟩
  · obtain rfl :
        ({ room with battle_participants :=
            room.battle_participants ++ [⟨pid, u, un, now⟩] } : Room) = r2 :=
      Except.ok.inj hok
    exact ⟨rfl, rfl, rfl, Or.inr ⟨rfl, not_le.mp h2⟩⟩

/-- Helper: the leave flow only removes the leaver rows; capacity is
untouched, and status and countdown timestamp are either untouched or set to
`waiting` with a cleared countdown by the compensating revert. -/
theorem leaveRoomOp_fields (room : Room) (u : String) :
    (leaveRoomOp room u).battle_participants =
      room.battle_participants.filter (fun p => p.user_id != u) ∧
    (leaveRoomOp room u).max_players = room.max_players ∧
    ((leaveRoomOp room u).status = room.status ∧
        (leaveRoomOp room u).countdown_initiated_at =
          room.countdown_initiated_at ∨
      (leaveRoomOp room u).status = "waiting" ∧
        (leaveRoomOp room u).countdown_initiated_at = none) := by
  unfold leaveRoomOp applyRevert deleteParticipant
  cases hostReassignment room u <;> dsimp <;> split <;> simp

/-- Helper: one membership operation preserves the capacity bound. -/
theorem applyMemberOp_capacity (room : Room) (op : MemberOp)
    (h : currentPlayers room ≤ room.max_players) :
    currentPlayers (applyMemberOp room op) ≤
      (applyMemberOp room op).max_players := by
  cases op with
  | join u un pid now =>
      dsimp only [applyMemberOp]
      cases hj : joinRoom room u un pid now with
      | error e => exact h
      | ok r2 =>
          obtain ⟨-, -, hmax, hparts⟩ := joinRoom_ok room r2 u un pid now hj
          cases hparts with
          | inl heq => rw [currentPlayers, heq, hmax]; exact h
          | inr hins =>
              rw [currentPlayers, hins.1, hmax, List.length_append]
              simpa using hins.2
  | leave u =>
      obtain ⟨hparts, hmax, -⟩ := leaveRoomOp_fields room u
      dsimp only [applyMemberOp]
      rw [currentPlayers, hparts, hmax]
      exact le_trans (List.length_filter_le _ _) h

/-- C2. Under any interleaving of join and leave operations the participant
count of the room never exceeds `max_players` (given it did not at the
start); in particular a join hitting a room whose count equals capacity
fails with the room-full error and changes nothing. -/
theorem participant_count_never_exceeds_capacity
    (ops : List MemberOp) (room : Room)
    (hroom : currentPlayers room ≤ room.max_players) :
    currentPlayers (ops.foldl applyMemberOp room) ≤
      (ops.foldl applyMemberOp room).max_players ∧
    (∀ (r : Room) (u un pid : String) (now : Int),
      r.status = "waiting" → currentPlayers r = r.max_players →
      joinRoom r u un pid now = .error .roomFull ∧
        applyMemberOp r (.join u un pid now) = r) := by
  constructor
  · induction ops generalizing room with
    | nil => exact hroom
    | cons op ops ih => exact ih _ (applyMemberOp_capacity room op hroom)
  · intro r u un pid now hw hfull
    have hj : joinRoom r u un pid now = .error .roomFull := by
      have hfull2 : r.max_players ≤ r.battle_participants.length :=
        le_of_eq hfull.symm
      unfold joinRoom
      rw [if_neg (by simp [hw]), if_pos hfull2]
    exact ⟨hj, by simp [applyMemberOp, hj]⟩

/-- Witness for `participant_count_never_exceeds_capacity`. -/
theorem participant_count_never_exceeds_capacity_witness :
    currentPlayers
        ([MemberOp.join "alice" "Alice" "bp-1" 1000,
          MemberOp.join "bob" "Bob" "bp-2" 2000,
          MemberOp.leave "alice"].foldl applyMemberOp fullRoom1v1) ≤
      ([MemberOp.join "alice" "Alice" "bp-1" 1000,
          MemberOp.join "bob" "Bob" "bp-2" 2000,
          MemberOp.leave "alice"].foldl applyMemberOp
        fullRoom1v1).max_players ∧
    joinRoom fullRoom1v1 "bob" "Bob" "bp-9" 5 = .error .roomFull :=
  ⟨(participant_count_never_exceeds_capacity
      [MemberOp.join "alice" "Alice" "bp-1" 1000,
        MemberOp.join "bob" "Bob" "bp-2" 2000,
        MemberOp.leave "alice"] fullRoom1v1 (by decide)).1,
   ((participant_count_never_exceeds_capacity [] fullRoom1v1 (by decide)).2
      fullRoom1v1 "bob" "Bob" "bp-9" 5 rfl rfl).1⟩

/-- C3 (counterexample). When two remaining participants share the earliest
join timestamp, the reassigned host depends on the order in which the store
listed the rows: `tieRoomA` and `tieRoomB` hold the same participant set
(one a permutation of the other) yet the host write picks a different user.
The stable ascending sort keeps tied rows in listing order, so the choice is
not deterministic regardless of ordering among remaining participants. -/
theorem host_reassignment_depends_on_row_order :
    List.Perm tieRoomA.battle_participants tieRoomB.battle_participants ∧
    hostReassignment tieRoomA "host-1" = some "ua" ∧
    hostReassignment tieRoomB "host-1" = some "ub" := by
  refine ⟨?_, rfl, rfl⟩
  exact .cons _ (.swap _ _ _)

/-- C3 (amended). When the host leaves with no remaining participant, no
host-reassignment write is attempted; when the host leaves and some
remaining participant has a strictly earliest join timestamp, that
participant becomes host, independently of how the remaining rows were
ordered. (With tied earliest timestamps the row listed first wins, as the
counterexample shows.) -/
theorem host_failover_earliest (room : Room) (userId : String) :
    (room.host_id = userId → remainingAfterLeave room userId = [] →
      hostReassignment room userId = none) ∧
    (∀ p : Participant, room.host_id = userId →
      p ∈ remainingAfterLeave room userId →
      (∀ q ∈ remainingAfterLeave room userId, q ≠ p →
        p.created_at < q.created_at) →
      hostReassignment room userId = some p.user_id) := by
  constructor
  · intro hhost hempty
    unfold hostReassignment
    rw [if_pos hhost, hempty]
    rfl
  · intro p hhost hp hmin
    unfold hostReassignment
    rw [if_pos hhost]
    have hperm :
        List.Perm (sortByJoinTime (remainingAfterLeave room userId))
          (remainingAfterLeave room userId) :=
      List.perm_insertionSort _ _
    have hsorted :
        List.Sorted joinOrder
          (sortByJoinTime (remainingAfterLeave room userId)) :=
      List.sorted_insertionSort _ _
    cases hs : sortByJoinTime (remainingAfterLeave room userId) with
    | nil =>
        rw [hs] at hperm
        exact absurd (hperm.symm.subset hp) (by simp)
    | cons hd tl =>
        rw [hs] at hperm hsorted
        dsimp only
        have hhd_mem : hd ∈ remainingAfterLeave room userId :=
          hperm.subset (List.mem_cons_self hd tl)
        by_cases hep : hd = p
        · rw [hep]
        · have h1 : p.created_at < hd.created_at := hmin hd hhd_mem hep
          have hp_in : p ∈ hd :: tl := hperm.mem_iff.mpr hp
          have hpt : p ∈ tl := by
            rcases List.mem_cons.mp hp_in with h2 | h2
            · exact absurd h2.symm hep
            · exact h2
          have h2 : joinOrder hd p := (List.sorted_cons.mp hsorted).1 p hpt
          exact absurd h2 (not_le.mpr h1)

/-- Witness for `host_failover_earliest`. -/
theorem host_failover_earliest_witness :
    hostReassignment soloFfaRoom "host-1" = none ∧
    hostReassignment hostLeaveRoom "host-1" = some "alice" :=
  ⟨(host_failover_earliest soloFfaRoom "host-1").1 rfl rfl,
   (host_failover_earliest hostLeaveRoom "host-1").2 pAlice rfl (by decide)
      (by decide)⟩

/-- C4 (counterexample). On countdown entry through the capacity path
(status `waiting`, room full, `countdown_initiated_at` unset) the entering
client issues *no* store write at all — in particular it does not write the
current time to `countdown_initiated_at`, so the stored countdown timestamp
stays null rather than becoming non-null. -/
theorem full_room_entry_writes_no_countdown_timestamp :
    fullRoom1v1.status = "waiting" ∧
    currentPlayers fullRoom1v1 = fullRoom1v1.max_players ∧
    fullRoom1v1.countdown_initiated_at = none ∧
    countdownEffect fullRoom1v1 0 =
      ⟨some (initialCountdownDuration "1v1"), none⟩ ∧
    (applyWrite fullRoom1v1
        (countdownEffect fullRoom1v1 0).write).countdown_initiated_at =
      none := by
  exact ⟨rfl, rfl, rfl, rfl, rfl⟩

/-- Helper: the fixed countdown duration is positive (5 or 10 seconds). -/
theorem initialCountdownDuration_pos (bt : String) :
    0 < initialCountdownDuration bt := by
  unfold initialCountdownDuration
  split <;> decide

/-- C4 (amended). On countdown entry through the capacity path with the
shared timestamp unset, the client starts a purely local countdown at the
fixed duration of the battle type and performs no store write; the shared
`countdown_initiated_at` is only ever written by the manual start of the
host (`startBattleMutation`), so in the capacity path it stays null. -/
theorem capacity_countdown_runs_locally (room : Room) (nowMs : Int)
    (hw : room.status = "waiting")
    (hfull : currentPlayers room = room.max_players)
    (hcd : room.countdown_initiated_at = none) :
    countdownEffect room nowMs =
      ⟨some (initialCountdownDuration room.battle_type), none⟩ := by
  have hpos := initialCountdownDuration_pos room.battle_type
  simp [countdownEffect, hw, hfull, hcd, not_le.mpr hpos]

/-- Witness for `capacity_countdown_runs_locally`. -/
theorem capacity_countdown_runs_locally_witness :
    countdownEffect fullRoom1v1 42 =
      ⟨some (initialCountdownDuration fullRoom1v1.battle_type), none⟩ :=
  capacity_countdown_runs_locally fullRoom1v1 42 rfl rfl rfl

/-- C6 (counterexample). The displayed remaining time is clamped at zero
(`Math.max(0, ...)`), so two recomputations whose `now` values differ by
Δ = 10 seconds need not differ by 10: with duration 5 and countdown start 0,
the recomputation at 0 ms gives 5 and at 10000 ms gives 0 — a difference of
5, not 10. -/
theorem countdown_delta_clamped :
    ¬ (calculatedTimeRemainingFrom 5 0 0 -
        calculatedTimeRemainingFrom 5 10000 0 = 10) := by
  decide

/-- C6 (amended). As long as the later recomputation is still nonnegative
before clamping (both recomputations in the unclamped region) and the two
`now` values differ by a whole number `k` of seconds (Δ = 1000·k ms), the
two remaining times differ by exactly `k` seconds. -/
theorem countdown_delta_exact (duration startMs nowMs k : Int) (hk : 0 ≤ k)
    (h : 0 ≤ duration - ((nowMs + 1000 * k) - startMs).fdiv 1000) :
    calculatedTimeRemainingFrom duration nowMs startMs -
      calculatedTimeRemainingFrom duration (nowMs + 1000 * k) startMs = k := by
  have h1000 : ((nowMs + 1000 * k) - startMs).fdiv 1000 =
      (nowMs - startMs).fdiv 1000 + k := by
    rw [Int.fdiv_eq_ediv _ (by norm_num), Int.fdiv_eq_ediv _ (by norm_num)]
    have harg : (nowMs + 1000 * k) - startMs = (nowMs - startMs) + k * 1000 := by
      ring
    rw [harg, Int.add_mul_ediv_right _ _ (by norm_num : (1000 : Int) ≠ 0)]
  unfold calculatedTimeRemainingFrom
  rw [h1000] at h ⊢
  have h2 : (0 : Int) ≤ duration - (nowMs - startMs).fdiv 1000 := by linarith
  rw [max_eq_right h, max_eq_right h2]
  ring

/-- Witness for `countdown_delta_exact`. -/
theorem countdown_delta_exact_witness :
    calculatedTimeRemainingFrom 5 0 0 -
      calculatedTimeRemainingFrom 5 (0 + 1000 * 2) 0 = 2 :=
  countdown_delta_exact 5 0 0 2 (by decide) (by decide)

/-- C9. After a kick (which the code only performs when the acting user is
the host and the target is someone else), the target client — whose row is
now gone while it never initiated a leave, so its `isLeaving` is false —
satisfies the kicked-detection condition and therefore shows the Kicked
notice and exits to the lobby; a self-initiated leave runs with `isLeaving`
true and never satisfies that condition, exiting with no kicked notice. -/
theorem kicked_vs_left (room r2 : Room) (actorId targetId : String)
    (hk : removeParticipantOp room actorId targetId = some r2) :
    kickedDetected r2 targetId false ∧
    (∀ (r : Room) (u : String), ¬ kickedDetected (leaveRoomOp r u) u true) := by
  constructor
  · unfold removeParticipantOp at hk
    split_ifs at hk with h1 h2
    obtain rfl : applyRevert room (deleteParticipant room targetId) = r2 :=
      Option.some.inj hk
    have hparts :
        (applyRevert room
            (deleteParticipant room targetId)).battle_participants =
          (deleteParticipant room targetId).battle_participants := by
      unfold applyRevert; split <;> rfl
    have hhost :
        (applyRevert room (deleteParticipant room targetId)).host_id =
          room.host_id := by
      unfold applyRevert; split <;> rfl
    refine ⟨?_, ?_, rfl⟩
    · rw [hparts]
      unfold deleteParticipant
      simp [List.any_eq_true, List.mem_filter]
    · rw [hhost, not_ne_iff.mp h1]
      exact fun he => h2 he.symm
  · intro r u
    unfold kickedDetected
    simp

/-- Witness for `kicked_vs_left`. -/
theorem kicked_vs_left_witness :
    kickedDetected (applyRevert kickRoom (deleteParticipant kickRoom "alice"))
      "alice" false ∧
    ¬ kickedDetected (leaveRoomOp kickRoom "alice") "alice" true :=
  ⟨(kicked_vs_left kickRoom _ "host-1" "alice" rfl).1,
   (kicked_vs_left kickRoom _ "host-1" "alice" rfl).2 kickRoom "alice"⟩

/-- Helper: a kick that went through either left status and countdown
untouched or applied the compensating revert (status `waiting`, countdown
cleared). -/
theorem removeParticipantOp_fields (room r2 : Room) (a t : String)
    (hk : removeParticipantOp room a t = some r2) :
    (r2.status = room.status ∧
        r2.countdown_initiated_at = room.countdown_initiated_at) ∨
      (r2.status = "waiting" ∧ r2.countdown_initiated_at = none) := by
  unfold removeParticipantOp at hk
  split_ifs at hk with h1 h2
  obtain rfl : applyRevert room (deleteParticipant room t) = r2 :=
    Option.some.inj hk
  unfold applyRevert
  split
  · right; exact ⟨rfl, rfl⟩
  · left; exact ⟨rfl, rfl⟩

/-- Helper: a successful manual start happened while the room was `waiting`,
kept the status, and wrote the countdown timestamp. -/
theorem startBattle_ok_fields (room r2 : Room) (u : String) (n : Int)
    (hok : startBattleMutationFn room u n = .ok r2) :
    r2.status = room.status ∧ room.status = "waiting" ∧
      r2.countdown_initiated_at = some n := by
  unfold startBattleMutationFn applyWrite at hok
  split_ifs at hok with h1 h2 h3
  obtain rfl := Except.ok.inj hok
  exact ⟨rfl, not_ne_iff.mp h3, rfl⟩

/-- Helper: a successful ping touches only the ping fields. -/
theorem pingHost_ok_fields (room r2 : Room) (u : String) (n : Int)
    (hok : pingHostMutationFn room u n = .ok r2) :
    r2.status = room.status ∧
      r2.countdown_initiated_at = room.countdown_initiated_at := by
  unfold pingHostMutationFn at hok
  split_ifs at hok
  obtain rfl := Except.ok.inj hok
  exact ⟨rfl, rfl⟩

/-- Helper: a transition attempt either does nothing or leaves the row at
status `in_progress` with the countdown cleared. -/
theorem attemptAutoStart_fields (c : String) (room : Room) :
    attemptAutoStart c room = room ∨
      ((attemptAutoStart c room).status = "in_progress" ∧
        (attemptAutoStart c room).countdown_initiated_at = none) := by
  unfold attemptAutoStart updateStatusWrite
  split
  · right; exact ⟨rfl, rfl⟩
  · left; rfl

/-- Helper: every operation of the subsystem preserves the invariant that
the countdown timestamp is non-null only while the status is `waiting`. -/
theorem applyOp_countdownInv (room : Room) (op : BattleOp)
    (h : countdownInv room) : countdownInv (applyOp room op) := by
  cases op with
  | join u un pid now =>
      dsimp only [applyOp]
      cases hj : joinRoom room u un pid now with
      | error e => exact h
      | ok r2 =>
          obtain ⟨hs, hc, -, -⟩ := joinRoom_ok room r2 u un pid now hj
          intro hcd
          rw [hs]
          exact h (by rw [← hc]; exact hcd)
  | leave u =>
      dsimp only [applyOp]
      rcases (leaveRoomOp_fields room u).2.2 with hh | hh
      · intro hcd
        rw [hh.1]
        exact h (by rw [← hh.2]; exact hcd)
      · intro hcd
        rw [hh.2] at hcd
        exact absurd rfl hcd
  | kick a t =>
      dsimp only [applyOp]
      cases hk : removeParticipantOp room a t with
      | none => exact h
      | some r2 =>
          dsimp only [Option.getD]
          rcases removeParticipantOp_fields room r2 a t hk with hh | hh
          · intro hcd
            rw [hh.1]
            exact h (by rw [← hh.2]; exact hcd)
          · intro hcd
            rw [hh.2] at hcd
            exact absurd rfl hcd
  | autoStart =>
      dsimp only [applyOp]
      rcases attemptAutoStart_fields room.status room with he | hh
      · rw [he]; exact h
      · intro hcd
        rw [hh.2] at hcd
        exact absurd rfl hcd
  | manualStart u n =>
      dsimp only [applyOp]
      cases hm : startBattleMutationFn room u n with
      | error e => exact h
      | ok r2 =>
          obtain ⟨hs, hw, -⟩ := startBattle_ok_fields room r2 u n hm
          intro _
          rw [hs, hw]
  | pingHost u n =>
      dsimp only [applyOp]
      cases hm : pingHostMutationFn room u n with
      | error e => exact h
      | ok r2 =>
          obtain ⟨hs, hc⟩ := pingHost_ok_fields room r2 u n hm
          intro hcd
          rw [hs]
          exact h (by rw [← hc]; exact hcd)

/-- Helper: any operation that moves the status to `in_progress` clears the
countdown timestamp in that same update. -/
theorem applyOp_transition_clears (r : Room) (op : BattleOp)
    (h1 : r.status ≠ "in_progress")
    (h2 : (applyOp r op).status = "in_progress") :
    (applyOp r op).countdown_initiated_at = none := by
  cases op with
  | join u un pid now =>
      dsimp only [applyOp] at h2 ⊢
      cases hj : joinRoom r u un pid now with
      | error e =>
          rw [hj] at h2
          exact absurd h2 h1
      | ok r2 =>
          rw [hj] at h2
          obtain ⟨hs, -, -, -⟩ := joinRoom_ok r r2 u un pid now hj
          replace h2 : r2.status = "in_progress" := h2
          rw [hs] at h2
          exact absurd h2 h1
  | leave u =>
      dsimp only [applyOp] at h2 ⊢
      rcases (leaveRoomOp_fields r u).2.2 with hh | hh
      · rw [hh.1] at h2
        exact absurd h2 h1
      · exact hh.2
  | kick a t =>
      dsimp only [applyOp] at h2 ⊢
      cases hk : removeParticipantOp r a t with
      | none =>
          rw [hk] at h2
          exact absurd h2 h1
      | some r2 =>
          rw [hk] at h2
          replace h2 : r2.status = "in_progress" := h2
          rcases removeParticipantOp_fields r r2 a t hk with hh | hh
          · rw [hh.1] at h2
            exact absurd h2 h1
          · exact hh.2
  | autoStart =>
      dsimp only [applyOp] at h2 ⊢
      rcases attemptAutoStart_fields r.status r with he | hh
      · rw [he] at h2
        exact absurd h2 h1
      · exact hh.2
  | manualStart u n =>
      dsimp only [applyOp] at h2 ⊢
      cases hm : startBattleMutationFn r u n with
      | error e =>
          rw [hm] at h2
          exact absurd h2 h1
      | ok r2 =>
          rw [hm] at h2
          obtain ⟨hs, -, -⟩ := startBattle_ok_fields r r2 u n hm
          replace h2 : r2.status = "in_progress" := h2
          rw [hs] at h2
          exact absurd h2 h1
  | pingHost u n =>
      dsimp only [applyOp] at h2 ⊢
      cases hm : pingHostMutationFn r u n with
      | error e =>
          rw [hm] at h2
          exact absurd h2 h1
      | ok r2 =>
          rw [hm] at h2
          obtain ⟨hs, -⟩ := pingHost_ok_fields r r2 u n hm
          replace h2 : r2.status = "in_progress" := h2
          rw [hs] at h2
          exact absurd h2 h1

/-- C7 (counterexample). The countdown timestamp being non-null only while
the status is `waiting` is not a true store invariant: the `waiting` guard
of `startBattleMutation` reads the cached query snapshot while its update is
filtered only by room id. A host whose cache still says `waiting` while the
stored row has already moved to `in_progress` (with a null countdown — the
invariant holds of the stored row before the write) sets a non-null
countdown timestamp on that non-`waiting` stored row, violating the
invariant. -/
theorem manualStart_stale_cache_breaks_countdown_inv :
    countdownInv staleInProgressRoom ∧
    (attemptManualStart kickRoom staleInProgressRoom "host-1" 42).status =
      "in_progress" ∧
    (attemptManualStart kickRoom staleInProgressRoom
        "host-1" 42).countdown_initiated_at = some 42 ∧
    ¬ countdownInv
        (attemptManualStart kickRoom staleInProgressRoom "host-1" 42) := by
  decide

/-- C7 (amended). Under fresh-snapshot semantics — each operation's guard
evaluated on the stored row it updates — the countdown timestamp stays
non-null only while the status is `waiting` along any sequence of
operations (given the invariant held initially; a created room starts
`waiting` with a null countdown), and any single operation that transitions
the status to `in_progress` clears the countdown timestamp in the same
single-row update. The invariant is not preserved once a write is guarded
by a stale cached snapshot: the manual start can then set a non-null
countdown on a non-`waiting` stored row, as the counterexample shows. -/
theorem countdown_nonnull_only_while_waiting
    (ops : List BattleOp) (room : Room) (h : countdownInv room) :
    countdownInv (ops.foldl applyOp room) ∧
    (∀ (op : BattleOp) (r : Room), r.status ≠ "in_progress" →
      (applyOp r op).status = "in_progress" →
      (applyOp r op).countdown_initiated_at = none) := by
  constructor
  · induction ops generalizing room with
    | nil => exact h
    | cons op ops ih => exact ih _ (applyOp_countdownInv room op h)
  · intro op r
    exact applyOp_transition_clears r op

/-- Witness for `countdown_nonnull_only_while_waiting`. -/
theorem countdown_nonnull_only_while_waiting_witness :
    countdownInv
      ([BattleOp.manualStart "host-1" 42, BattleOp.autoStart].foldl applyOp
        soloFfaRoom) ∧
    (applyOp { soloFfaRoom with countdown_initiated_at := some 42 }
        BattleOp.autoStart).countdown_initiated_at = none :=
  ⟨(countdown_nonnull_only_while_waiting
      [BattleOp.manualStart "host-1" 42, BattleOp.autoStart] soloFfaRoom
      (by decide)).1,
   (countdown_nonnull_only_while_waiting [] soloFfaRoom (by decide)).2
      BattleOp.autoStart { soloFfaRoom with countdown_initiated_at := some 42 }
      (by decide) rfl⟩

/-- Witness for `joinRoomByCode_spec`. -/
theorem joinRoomByCode_spec_witness :
    joinRoomByCode [] "ZZZZZZ" "alice" "Alice" "bp-9" 0 =
      .error .roomNotFound ∧
    joinRoomByCode [soloFfaRoom] "abc123" "host-1" "Hosty" "bp-9" 0 =
      .ok ([soloFfaRoom], soloFfaRoom) :=
  ⟨(joinRoomByCode_spec [] "ZZZZZZ" "alice" "Alice" "bp-9" 0).1 rfl,
   (joinRoomByCode_spec [soloFfaRoom] "abc123" "host-1" "Hosty" "bp-9" 0).2.2
      soloFfaRoom rfl (by decide) rfl⟩

end Medistics
